import Mathlib

/-
Verification development for the Live-Voice-Agent relay
(src/backend/server.py and src/main.py).

The Python relay is shallowly embedded here:
  * JSON values exchanged on either WebSocket leg become the inductive
    type JVal; Python dict .get(k) / .get(k, default) becomes lookupF
    with an Option result / getD.
  * The client->upstream pump body (receive_from_client, server.py
    lines 347-484) becomes receive_from_client_step; its audio framing
    while-loop (lines 366-382) becomes drainChunks / processAudio at the
    level of decoded bytes (base64 at the envelope boundary is embedded
    by b64encode / b64decode below).
  * The upstream->client pump body (receive_from_azure, server.py lines
    486-599) becomes receive_from_azure_step.
  * The session negotiation (websocket_endpoint, server.py lines
    224-293) becomes negotiate: a function of the single awaited first
    upstream event (or timeout / JSON failure) to the message sent to
    the client plus whether the two pumps are started.
  * AsyncAzureVoiceLive.connect's URL construction (server.py lines
    107-108, identically main.py lines 153-154) becomes connect_url,
    with Python str.rstrip and str.replace embedded on lists of
    characters.
Network sends are modelled as ordered output lists; logging calls have
no observable effect and are dropped.  Text spliced into f-strings from
Python exception objects is not derivable from the inputs and is
abstracted to the fixed prefix of the corresponding message.
-/

namespace VoiceLive

/-- Shorthand turning a string literal into the list of its characters. -/
def ts (s : String) : List Char := s.toList

/-- JSON values, the payloads carried on both WebSocket legs
(RelayEvent envelopes in the spec's data model). -/
inductive JVal where
  | jnull
  | jbool (b : Bool)
  | jnum (n : Int)
  | jstr (s : List Char)
  | jarr (xs : List JVal)
  | jobj (fs : List (List Char × JVal))

/-- Field lookup in a JSON object, as Python dict.get(k): objects coming
from json.loads have unique keys, so first-match lookup is exact. -/
def lookupF (k : List Char) : List (List Char × JVal) → Option JVal
  | [] => none
  | (k2, v) :: rest => if k2 = k then some v else lookupF k rest

/-- Python truthiness of a JSON value, used by the sources' bare
if-tests such as `if audio_delta:` and `if not audio_base64:`. -/
def truthy : JVal → Bool
  | .jnull => false
  | .jbool b => b
  | .jnum n => !(n == 0)
  | .jstr s => !s.isEmpty
  | .jarr xs => !xs.isEmpty
  | .jobj fs => !fs.isEmpty

/-- Python str() of a JSON value as spliced into f-strings.  Strings,
None, booleans and integers render exactly as in Python; the rendering
of containers (Python would print their repr) is abstracted, as no
claim exercises it. -/
def pyStr : JVal → List Char
  | .jstr s => s
  | .jnull => ts "None"
  | .jbool true => ts "True"
  | .jbool false => ts "False"
  | .jnum n => (toString n).toList
  | .jarr _ => ts "<list>"
  | .jobj _ => ts "<dict>"

/-- Python str() of a dict.get result that may be absent (None). -/
def pyStrOpt : Option JVal → List Char
  | none => ts "None"
  | some v => pyStr v

/-- Test whether field k of an object holds exactly the string v; this
is the shape of every `data.get("type") == "..."` comparison in the
sources (a comparison with a non-string or missing field is False). -/
def isStrField (fs : List (List Char × JVal)) (k v : List Char) : Bool :=
  match lookupF k fs with
  | some (.jstr s) => s == v
  | _ => false

/-! Base64, as used by base64.b64decode / b64encode on audio payloads.
Only well-padded standard-alphabet inputs are exercised; like Python's
decoder, characters outside the alphabet are discarded first. -/

/-- Standard base64 alphabet. -/
def b64_alphabet : List Char :=
  ts "ABCDEFGHIJKLMNOPQRSTUVWXYZabcdefghijklmnopqrstuvwxyz0123456789+/"

/-- Position of a character in the base64 alphabet. -/
def b64IndexAux (c : Char) : List Char → Nat → Option Nat
  | [], _ => none
  | a :: rest, i => if a == c then some i else b64IndexAux c rest (i + 1)

/-- Sextet value of a base64 character, none if not in the alphabet. -/
def b64Index (c : Char) : Option Nat := b64IndexAux c b64_alphabet 0

/-- Character for a sextet value. -/
def b64encChar (n : Nat) : Char := b64_alphabet.getD n 'A'

/-- Base64 encoding of a byte list (base64.b64encode). -/
def b64encode : List Nat → List Char
  | [] => []
  | [b1] => [b64encChar (b1 / 4), b64encChar (b1 % 4 * 16), '=', '=']
  | [b1, b2] =>
      [b64encChar (b1 / 4), b64encChar (b1 % 4 * 16 + b2 / 16),
       b64encChar (b2 % 16 * 4), '=']
  | b1 :: b2 :: b3 :: rest =>
      b64encChar (b1 / 4) :: b64encChar (b1 % 4 * 16 + b2 / 16) ::
      b64encChar (b2 % 16 * 4 + b3 / 64) :: b64encChar (b3 % 64) ::
      b64encode rest

/-- Byte list from a list of sextets (groups of four, with the final
group allowed to hold two or three sextets after padding removal). -/
def b64decodeSextets : List Nat → Option (List Nat)
  | [] => some []
  | [_] => none
  | [a, b] => some [a * 4 + b / 16]
  | [a, b, c] => some [a * 4 + b / 16, b % 16 * 16 + c / 4]
  | a :: b :: c :: d :: rest =>
      match b64decodeSextets rest with
      | none => none
      | some tl =>
          some ((a * 4 + b / 16) :: (b % 16 * 16 + c / 4) :: (c % 4 * 64 + d) :: tl)

/-- Base64 decoding (base64.b64decode); none models the binascii
exception raised on bad padding. -/
def b64decode (s : List Char) : Option (List Nat) :=
  let cleaned := s.filter (fun c => (b64Index c).isSome || c == '=')
  if cleaned.length % 4 == 0 then
    b64decodeSextets ((cleaned.takeWhile (fun c => !(c == '='))).filterMap b64Index)
  else none

/-! Audio framing constants and the accumulation-buffer loop,
from receive_from_client (server.py lines 349, 366-382, 410-447). -/

/-- Sample rate constant of both sources. -/
def AUDIO_SAMPLE_RATE : Nat := 24000

/-- Chunk size in bytes: int(AUDIO_SAMPLE_RATE * 0.1 * 2), 100ms of
16-bit mono audio; the float expression evaluates exactly to 4800. -/
def chunk_size : Nat := AUDIO_SAMPLE_RATE / 10 * 2

/-- Silence appended on recording_stopped, in samples:
int(AUDIO_SAMPLE_RATE * 0.8) = 19200 (server.py lines 426-427). -/
def silence_samples : Nat := AUDIO_SAMPLE_RATE * 8 / 10

/-- Silence chunk granularity in samples: int(AUDIO_SAMPLE_RATE * 0.02)
= 480 (server.py line 428, the local variable also named chunk_size). -/
def silence_chunk : Nat := AUDIO_SAMPLE_RATE / 50

/-- Fuel-indexed form of the while-loop of server.py lines 371-382:
while len(audio_buffer) >= chunk_size, slice off the first chunk_size
bytes as one chunk.  Fuel bounds the iteration count; drainChunks below
supplies fuel that can never run out. -/
def drainChunksF : Nat → List Nat → List (List Nat) × List Nat
  | 0, buf => ([], buf)
  | fuel + 1, buf =>
      if chunk_size ≤ buf.length then
        let r := drainChunksF fuel (buf.drop chunk_size)
        (buf.take chunk_size :: r.1, r.2)
      else ([], buf)

/-- Full chunks sliced from a buffer, with the remainder kept. -/
def drainChunks (buf : List Nat) : List (List Nat) × List Nat :=
  drainChunksF buf.length buf

/-- Processing of one audio message at the level of decoded bytes
(server.py lines 366-382): extend the accumulation buffer, then emit
every complete chunk.  First component: chunks sent upstream in order;
second: the buffer afterwards. -/
def processAudio (buf newBytes : List Nat) : List (List Nat) × List Nat :=
  drainChunks (buf ++ newBytes)

/-- Folding processAudio over a sequence of decoded audio payloads,
i.e. the effect of a run of consecutive audio messages on the pump. -/
def runAppends : List Nat → List (List Nat) → List (List Nat) × List Nat
  | buf, [] => ([], buf)
  | buf, bs :: rest =>
      let r := processAudio buf bs
      let rr := runAppends r.2 rest
      (r.1 ++ rr.1, rr.2)

/-- Python range(start, stop, step) with positive step, fuel-indexed
(fuel stop − start always suffices for step ≥ 1). -/
def pyRangeF (step : Nat) : Nat → Nat → Nat → List Nat
  | 0, _, _ => []
  | fuel + 1, start, stop =>
      if start < stop then start :: pyRangeF step fuel (start + step) stop
      else []

/-- Python range(start, stop, step) for positive step. -/
def pyRange (start stop step : Nat) : List Nat :=
  pyRangeF step (stop - start) start stop

/-- Messages the client pump sends to the upstream connection, at the
level of decoded audio bytes. -/
inductive UpMsg where
  | append (bytes : List Nat)
  | commit
  | clear
  | cancel
deriving DecidableEq

/-- Upstream sends performed by the recording_stopped branch (server.py
lines 410-447): flush the remaining buffer as one append if non-empty,
then the silence appends of np.zeros(min(chunk, remaining)) int16
samples (2 bytes each) for i in range(0, silence_samples, silence_chunk),
then exactly one commit. -/
def recordingStoppedUp (buf : List Nat) : List UpMsg :=
  (if 0 < buf.length then [UpMsg.append buf] else []) ++
  ((pyRange 0 silence_samples silence_chunk).map
    (fun i => UpMsg.append
      (List.replicate (2 * min silence_chunk (silence_samples - i)) (0 : Nat)))) ++
  [UpMsg.commit]

/-- JSON envelope actually serialized to the upstream connection for
each UpMsg, matching the dict literals of server.py lines 377-381,
396-399, 402-405, 434-438, 442-445. -/
def upMsgToJson : UpMsg → JVal
  | .append bs => .jobj [(ts "type", .jstr (ts "input_audio_buffer.append")),
                         (ts "audio", .jstr (b64encode bs)),
                         (ts "event_id", .jstr [])]
  | .commit => .jobj [(ts "type", .jstr (ts "input_audio_buffer.commit")),
                      (ts "event_id", .jstr [])]
  | .clear => .jobj [(ts "type", .jstr (ts "input_audio_buffer.clear")),
                     (ts "event_id", .jstr [])]
  | .cancel => .jobj [(ts "type", .jstr (ts "response.cancel")),
                      (ts "event_id", .jstr [])]

/-! Client->upstream pump, receive_from_client (server.py 347-484). -/

/-- One inbound item of the client pump's loop: a parsed JSON message,
a receive that raised ValueError (invalid JSON, line 466), or the 30s
idle timeout that triggers a ping (lines 458-465). -/
inductive ClientIn where
  | timeoutPing
  | malformed
  | msg (data : JVal)

/-- Envelope sent to the client on invalid JSON (server.py 468-471). -/
def badMsgEnv : JVal :=
  .jobj [(ts "type", .jstr (ts "error")),
         (ts "message", .jstr (ts "잘못된 메시지 형식입니다."))]

/-- Liveness ping sent on the 30s receive timeout (server.py 462). -/
def pingEnv : JVal := .jobj [(ts "type", .jstr (ts "ping"))]

/-- Envelope sent by the generic per-message handler of server.py
472-477 (exception text abstracted to the fixed prefix). -/
def genErrEnv : JVal :=
  .jobj [(ts "type", .jstr (ts "error")),
         (ts "message", .jstr (ts "메시지 처리 중 오류가 발생했습니다: "))]

/-- Envelope sent when audio processing raises (server.py 383-388),
e.g. on a base64 failure; exception text abstracted. -/
def audioErrEnv : JVal :=
  .jobj [(ts "type", .jstr (ts "error")),
         (ts "message", .jstr (ts "오디오 처리 중 오류가 발생했습니다: "))]

/-- One iteration of receive_from_client's loop body.  Result: the
accumulation buffer afterwards, the messages sent to the upstream
connection in order, and the messages sent back to the client. -/
def receive_from_client_step (buf : List Nat) :
    ClientIn → List Nat × List JVal × List JVal
  | .timeoutPing => (buf, [], [pingEnv])
  | .malformed => (buf, [], [badMsgEnv])
  | .msg (.jobj fs) =>
      if isStrField fs (ts "type") (ts "audio") then
        match lookupF (ts "audio") fs with
        | none => (buf, [], [])
        | some v =>
          if truthy v then
            match v with
            | .jstr s =>
              match b64decode s with
              | some bytes =>
                  let r := processAudio buf bytes
                  (r.2, r.1.map (fun c => upMsgToJson (.append c)), [])
              | none => (buf, [], [audioErrEnv])
            | _ => (buf, [], [audioErrEnv])
          else (buf, [], [])
      else if isStrField fs (ts "type") (ts "recording_started") then
        ([], [upMsgToJson .cancel, upMsgToJson .clear], [])
      else if isStrField fs (ts "type") (ts "recording_stopped") then
        ([], (recordingStoppedUp buf).map upMsgToJson, [])
      else
        (buf, [], [])
  | .msg _ => (buf, [], [genErrEnv])

/-- Run of the client pump over a list of inbound items, threading the
accumulation buffer and concatenating sends in order. -/
def clientRun : List Nat → List ClientIn → List Nat × List JVal × List JVal
  | buf, [] => (buf, [], [])
  | buf, m :: rest =>
      let r := receive_from_client_step buf m
      let rr := clientRun r.1 rest
      (rr.1, r.2.1 ++ rr.2.1, r.2.2 ++ rr.2.2)

/-! Upstream->client pump, receive_from_azure (server.py 486-599). -/

/-- Envelope sent by the per-event exception handler of server.py
577-583, reached whenever a field access on a non-dict raises
(exception text abstracted to the fixed prefix). -/
def procErrEnv : JVal :=
  .jobj [(ts "type", .jstr (ts "error")),
         (ts "message", .jstr (ts "Azure 이벤트 처리 중 오류가 발생했습니다: "))]

/-- Items of conversation.item.created content (server.py 532-541):
for each dict item of type "text" with truthy text, send a message
envelope; a non-dict item raises, aborting the loop with the generic
error envelope. -/
def contentLoop : List JVal → List JVal
  | [] => []
  | ci :: rest =>
      match ci with
      | .jobj cfs =>
          (if isStrField cfs (ts "type") (ts "text") then
             let t := (lookupF (ts "text") cfs).getD (.jstr [])
             if truthy t then
               [.jobj [(ts "type", .jstr (ts "message")), (ts "text", t)]]
             else []
           else []) ++ contentLoop rest
      | _ => [procErrEnv]

/-- Dispatch of receive_from_azure on a parsed JSON object event
(server.py 492-573); the returned list is what is sent to the client. -/
def azure_obj_step (fs : List (List Char × JVal)) : List JVal :=
  if isStrField fs (ts "type") (ts "session.created") then
    match lookupF (ts "session") fs with
    | none =>
        [.jobj [(ts "type", .jstr (ts "session_created")),
                (ts "session_id", .jstr (ts "unknown"))]]
    | some (.jobj sfs) =>
        [.jobj [(ts "type", .jstr (ts "session_created")),
                (ts "session_id", (lookupF (ts "id") sfs).getD (.jstr (ts "unknown")))]]
    | some _ => [procErrEnv]
  else if isStrField fs (ts "type") (ts "response.audio.delta") then
    let d := (lookupF (ts "delta") fs).getD (.jstr [])
    if truthy d then
      [.jobj [(ts "type", .jstr (ts "audio")), (ts "audio", d)]]
    else []
  else if isStrField fs (ts "type") (ts "response.audio.started") then
    [.jobj [(ts "type", .jstr (ts "ai_speaking_start"))]]
  else if isStrField fs (ts "type") (ts "response.audio.done") then
    [.jobj [(ts "type", .jstr (ts "ai_speaking_end"))]]
  else if isStrField fs (ts "type") (ts "conversation.item.created") then
    match lookupF (ts "item") fs with
    | none => []
    | some (.jobj ifs) =>
        if isStrField ifs (ts "type") (ts "message")
            && isStrField ifs (ts "role") (ts "assistant") then
          match lookupF (ts "content") ifs with
          | none => []
          | some (.jarr cs) => contentLoop cs
          | some _ => [procErrEnv]
        else []
    | some _ => [procErrEnv]
  else if isStrField fs (ts "type") (ts "input_audio_buffer.speech_started") then
    [.jobj [(ts "type", .jstr (ts "speech_detected"))]]
  else if isStrField fs (ts "type") (ts "input_audio_buffer.speech_stopped") then
    [.jobj [(ts "type", .jstr (ts "speech_stopped"))]]
  else if isStrField fs (ts "type") (ts "error") then
    match lookupF (ts "error") fs with
    | none =>
        [.jobj [(ts "type", .jstr (ts "error")),
                (ts "message", .jstr (ts "Azure 오류: " ++ ts "Unknown error"))]]
    | some (.jobj efs) =>
        let msg := (lookupF (ts "message") efs).getD (.jstr (ts "Unknown error"))
        [.jobj [(ts "type", .jstr (ts "error")),
                (ts "message", .jstr (ts "Azure 오류: " ++ pyStr msg))]]
    | some _ => [procErrEnv]
  else if isStrField fs (ts "type") (ts "rate_limits.updated") then
    []
  else
    []

/-- Handling of one parsed upstream event (server.py 491-573): a
non-dict event makes event.get raise, reaching the generic handler. -/
def receive_from_azure_step : JVal → List JVal
  | .jobj fs => azure_obj_step fs
  | _ => [procErrEnv]

/-- One raw frame read from the upstream socket: either valid JSON or
text that json.loads rejects. -/
inductive AzureRaw where
  | malformed
  | parsed (e : JVal)

/-- Handling of one raw upstream frame: json.JSONDecodeError is logged
and the loop continues with no sends (server.py 575-576). -/
def azureHandle : AzureRaw → List JVal
  | .malformed => []
  | .parsed e => receive_from_azure_step e

/-- Run of the upstream pump over a list of raw frames. -/
def azureRun : List AzureRaw → List JVal
  | [] => []
  | m :: rest => azureHandle m ++ azureRun rest

/-! Session negotiation, websocket_endpoint (server.py 236-293). -/

/-- What the negotiator observed: the 10s timeout fired, the first
frame failed json.loads, or a parsed first event arrived. -/
inductive NegoInput where
  | timeout
  | badJson
  | event (e : JVal)

/-- Outcome of negotiation: the message sent to the client, and whether
the relay goes on to start the two pump tasks (server.py 277-293 runs
exactly when the handler did not return earlier). -/
structure NegoOutcome where
  toClient : JVal
  pumpsStarted : Bool

/-- Envelope for the negotiation timeout (server.py 254-261). -/
def timeoutEnv : JVal :=
  .jobj [(ts "type", .jstr (ts "error")),
         (ts "message", .jstr (ts "Azure Voice API 세션 생성 시간 초과. 다시 시도해주세요."))]

/-- Envelope for invalid JSON in the first event (server.py 262-268). -/
def badJsonEnv : JVal :=
  .jobj [(ts "type", .jstr (ts "error")),
         (ts "message", .jstr (ts "Azure Voice API로부터 잘못된 응답을 받았습니다."))]

/-- Envelope for any other exception while processing the first event
(server.py 269-275), e.g. a field access on a non-dict raising;
exception text abstracted to the fixed prefix. -/
def initErrEnv : JVal :=
  .jobj [(ts "type", .jstr (ts "error")),
         (ts "message", .jstr (ts "Azure Voice API 초기화 오류: "))]

/-- Ready notification on session.created (server.py 243-247). -/
def readyEnv (sid : JVal) : JVal :=
  .jobj [(ts "type", .jstr (ts "session_created")),
         (ts "status", .jstr (ts "ready")),
         (ts "session_id", sid)]

/-- Warning sent on an unexpected first event type (server.py 248-253);
the handler does not return, so the pumps are started afterwards. -/
def warnEnv (t : Option JVal) : JVal :=
  .jobj [(ts "type", .jstr (ts "warning")),
         (ts "message", .jstr (ts "예상치 못한 응답: " ++ pyStrOpt t))]

/-- Negotiation as a function of the awaited first upstream event
(server.py 236-293).  Timeout and JSON failure return before the pump
tasks are created; session.created and the unexpected-type warning both
fall through to starting them. -/
def negotiate : NegoInput → NegoOutcome
  | .timeout => ⟨timeoutEnv, false⟩
  | .badJson => ⟨badJsonEnv, false⟩
  | .event (.jobj fs) =>
      if isStrField fs (ts "type") (ts "session.created") then
        match lookupF (ts "session") fs with
        | none => ⟨readyEnv (.jstr (ts "unknown")), true⟩
        | some (.jobj sfs) =>
            ⟨readyEnv ((lookupF (ts "id") sfs).getD (.jstr (ts "unknown"))), true⟩
        | some _ => ⟨initErrEnv, false⟩
      else
        ⟨warnEnv (lookupF (ts "type") fs), true⟩
  | .event _ => ⟨initErrEnv, false⟩

/-! Upstream URL construction, AsyncAzureVoiceLive.connect
(server.py 107-108; the identical lines are main.py 153-154). -/

/-- Python endpoint.rstrip with the slash character: remove every
trailing slash. -/
def rstripSlash (s : List Char) : List Char :=
  (s.reverse.dropWhile (fun c => c == '/')).reverse

/-- Fuel-indexed Python str.replace: substitute every non-overlapping
occurrence of pat left to right.  The fuel of replaceAll never runs
out for the non-empty pattern used by the source. -/
def replaceAllF (pat rep : List Char) : Nat → List Char → List Char
  | 0, s => s
  | _ + 1, [] => []
  | fuel + 1, c :: rest =>
      if pat.isPrefixOf (c :: rest) then
        rep ++ replaceAllF pat rep fuel ((c :: rest).drop pat.length)
      else
        c :: replaceAllF pat rep fuel rest

/-- Python str.replace(pat, rep) for a non-empty pattern. -/
def replaceAll (pat rep s : List Char) : List Char :=
  replaceAllF pat rep s.length s

/-- Whether pat occurs as a contiguous substring of s. -/
def containsSub (pat : List Char) : List Char → Bool
  | [] => pat.isPrefixOf []
  | c :: rest => pat.isPrefixOf (c :: rest) || containsSub pat rest

/-- Path-and-query tail appended after the stripped endpoint. -/
def url_tail (api_version model : List Char) : List Char :=
  ts "/voice-live/realtime?api-version=" ++ api_version ++ ts "&model=" ++ model

/-- URL built by connect (server.py 107-108): the f-string over the
rstripped endpoint, then .replace of https scheme text by wss.  Note
the source never rewrites http to ws. -/
def connect_url (endpoint api_version model : List Char) : List Char :=
  replaceAll (ts "https://") (ts "wss://")
    (rstripSlash endpoint ++ url_tail api_version model)

/-- Event types special-cased by receive_from_azure's dispatch. -/
def azureHandledTypes : List (List Char) :=
  [ts "session.created", ts "response.audio.delta",
   ts "response.audio.started", ts "response.audio.done",
   ts "conversation.item.created", ts "input_audio_buffer.speech_started",
   ts "input_audio_buffer.speech_stopped", ts "error",
   ts "rate_limits.updated"]

/-- Message types special-cased by receive_from_client's dispatch. -/
def clientHandledTypes : List (List Char) :=
  [ts "audio", ts "recording_started", ts "recording_stopped"]

/-- Object whose type field matches none of the given strings. -/
def notHandled (handled : List (List Char)) (fs : List (List Char × JVal)) : Bool :=
  handled.all (fun s => !(isStrField fs (ts "type") s))

/-! Helper lemmas about the audio framer. -/

lemma chunk_size_eq : chunk_size = 4800 := rfl

lemma chunk_size_pos : 0 < chunk_size := by decide

lemma drainChunksF_spec (fuel : Nat) :
    ∀ buf : List Nat, buf.length ≤ fuel →
      buf = (drainChunksF fuel buf).1.flatten ++ (drainChunksF fuel buf).2
      ∧ (∀ c ∈ (drainChunksF fuel buf).1, c.length = chunk_size)
      ∧ (drainChunksF fuel buf).2.length < chunk_size := by
  induction fuel with
  | zero =>
      intro buf h
      have hb : buf = [] := List.eq_nil_of_length_eq_zero (Nat.le_zero.mp h)
      subst hb
      refine ⟨rfl, ?_, ?_⟩
      · intro c hc
        simp [drainChunksF] at hc
      · simpa [drainChunksF] using chunk_size_pos
  | succ fuel ih =>
      intro buf h
      by_cases hc : chunk_size ≤ buf.length
      · have hlen : (buf.drop chunk_size).length ≤ fuel := by
          have := chunk_size_pos
          simp only [List.length_drop]
          omega
        obtain ⟨h1, h2, h3⟩ := ih (buf.drop chunk_size) hlen
        simp only [drainChunksF, if_pos hc]
        refine ⟨?_, ?_, h3⟩
        · calc buf = List.take chunk_size buf ++ List.drop chunk_size buf :=
                (List.take_append_drop _ _).symm
          _ = List.take chunk_size buf
              ++ ((drainChunksF fuel (buf.drop chunk_size)).1.flatten
                  ++ (drainChunksF fuel (buf.drop chunk_size)).2) := by rw [← h1]
          _ = (List.take chunk_size buf :: (drainChunksF fuel (buf.drop chunk_size)).1).flatten
              ++ (drainChunksF fuel (buf.drop chunk_size)).2 := by
                rw [List.flatten_cons, List.append_assoc]
        · intro c hcm
          rcases List.mem_cons.mp hcm with hceq | hcin
          · subst hceq
            simp only [List.length_take]
            omega
          · exact h2 c hcin
      · simp only [drainChunksF, if_neg hc]
        refine ⟨by simp, by simp, by omega⟩

lemma drainChunks_spec (buf : List Nat) :
    buf = (drainChunks buf).1.flatten ++ (drainChunks buf).2
    ∧ (∀ c ∈ (drainChunks buf).1, c.length = chunk_size)
    ∧ (drainChunks buf).2.length < chunk_size :=
  drainChunksF_spec buf.length buf (Nat.le_refl _)

lemma flatten_length_uniform (C : Nat) :
    ∀ cs : List (List Nat), (∀ c ∈ cs, c.length = C) →
      cs.flatten.length = C * cs.length := by
  intro cs
  induction cs with
  | nil => intro _; simp
  | cons c rest ih =>
      intro h
      have hc : c.length = C := h c (List.mem_cons_self _ _)
      have hrest := ih (fun d hd => h d (List.mem_cons_of_mem _ hd))
      simp only [List.flatten_cons, List.length_append, List.length_cons, hc, hrest]
      ring

lemma runAppends_spec :
    ∀ (bss : List (List Nat)) (buf : List Nat), buf.length < chunk_size →
      buf ++ bss.flatten = (runAppends buf bss).1.flatten ++ (runAppends buf bss).2
      ∧ (∀ c ∈ (runAppends buf bss).1, c.length = chunk_size)
      ∧ (runAppends buf bss).2.length < chunk_size := by
  intro bss
  induction bss with
  | nil =>
      intro buf h
      refine ⟨by simp [runAppends], by simp [runAppends], by simpa [runAppends] using h⟩
  | cons bs rest ih =>
      intro buf _
      obtain ⟨d1, d2, d3⟩ := drainChunks_spec (buf ++ bs)
      obtain ⟨r1, r2, r3⟩ := ih (drainChunks (buf ++ bs)).2 d3
      simp only [runAppends, processAudio]
      refine ⟨?_, ?_, r3⟩
      · calc buf ++ (bs :: rest).flatten
            = (buf ++ bs) ++ rest.flatten := by
              rw [List.flatten_cons, List.append_assoc]
        _ = ((drainChunks (buf ++ bs)).1.flatten ++ (drainChunks (buf ++ bs)).2)
              ++ rest.flatten := by rw [← d1]
        _ = (drainChunks (buf ++ bs)).1.flatten
              ++ ((drainChunks (buf ++ bs)).2 ++ rest.flatten) := by
              rw [List.append_assoc]
        _ = (drainChunks (buf ++ bs)).1.flatten
              ++ ((runAppends (drainChunks (buf ++ bs)).2 rest).1.flatten
                  ++ (runAppends (drainChunks (buf ++ bs)).2 rest).2) := by rw [← r1]
        _ = ((drainChunks (buf ++ bs)).1
              ++ (runAppends (drainChunks (buf ++ bs)).2 rest).1).flatten
              ++ (runAppends (drainChunks (buf ++ bs)).2 rest).2 := by
              rw [List.flatten_append, List.append_assoc]
      · intro c hcm
        rcases List.mem_append.mp hcm with hcl | hcr
        · exact d2 c hcl
        · exact r2 c hcr

/-- C4: for every sequence of audio-append operations of total decoded
byte length N, with chunk size C = 4800 bytes, the framer emits exactly
N / C full chunks of exactly C bytes each and leaves exactly N mod C
bytes buffered, and the recording_stopped flush sends exactly that
remaining buffer as the first upstream append. -/
theorem c4_framer_chunks (bss : List (List Nat)) :
    chunk_size = 4800
    ∧ (runAppends [] bss).1.length = (bss.map List.length).sum / 4800
    ∧ (∀ c ∈ (runAppends [] bss).1, c.length = 4800)
    ∧ (runAppends [] bss).2.length = (bss.map List.length).sum % 4800
    ∧ ((runAppends [] bss).2 ≠ [] →
        ∃ rest, recordingStoppedUp ((runAppends [] bss).2)
          = UpMsg.append ((runAppends [] bss).2) :: rest) := by
  obtain ⟨h1, h2, h3⟩ := runAppends_spec bss [] (by simpa using chunk_size_pos)
  have h2' : ∀ c ∈ (runAppends [] bss).1, c.length = 4800 := by
    intro c hc
    rw [← chunk_size_eq]
    exact h2 c hc
  have hflat : bss.flatten.length
      = (runAppends [] bss).1.flatten.length + (runAppends [] bss).2.length := by
    conv_lhs => rw [show bss.flatten = [] ++ bss.flatten from rfl, h1]
    rw [List.length_append]
  have hcs : (runAppends [] bss).1.flatten.length
      = 4800 * (runAppends [] bss).1.length :=
    flatten_length_uniform 4800 _ h2'
  have hsum : bss.flatten.length = (bss.map List.length).sum := List.length_flatten bss
  have h3' : (runAppends [] bss).2.length < 4800 := by rw [← chunk_size_eq]; exact h3
  refine ⟨chunk_size_eq, by omega, h2', by omega, ?_⟩
  intro hne
  have hpos : 0 < (runAppends [] bss).2.length := List.length_pos.mpr hne
  refine ⟨(pyRange 0 silence_samples silence_chunk).map
      (fun i => UpMsg.append
        (List.replicate (2 * min silence_chunk (silence_samples - i)) (0 : Nat)))
      ++ [UpMsg.commit], ?_⟩
  simp [recordingStoppedUp, if_pos hpos]

/-- C9: after the client pump processes any single audio message, the
accumulation buffer holds strictly fewer than 4800 bytes, and every
chunk emitted upstream during that processing is exactly 4800 bytes. -/
theorem c9_buffer_invariant (buf bs : List Nat) :
    (processAudio buf bs).2.length < 4800
    ∧ ∀ c ∈ (processAudio buf bs).1, c.length = 4800 := by
  obtain ⟨_, h2, h3⟩ := drainChunks_spec (buf ++ bs)
  exact ⟨by rw [← chunk_size_eq]; exact h3,
         fun c hc => by rw [← chunk_size_eq]; exact h2 c hc⟩

/-- C5: on recording_stopped with 3200 buffered bytes (chunk size
4800), the pump sends exactly one partial append carrying precisely the
buffered bytes (no full chunk), then the zero-filled silence appends,
then exactly one commit, in that order. -/
theorem c5_recording_stopped_order (buf : List Nat) (h : buf.length = 3200) :
    buf.length < chunk_size
    ∧ ∃ sils : List (List Nat),
        recordingStoppedUp buf
          = UpMsg.append buf :: (sils.map UpMsg.append ++ [UpMsg.commit])
        ∧ (∀ s ∈ sils, ∀ b ∈ s, b = 0)
        ∧ (recordingStoppedUp buf).count UpMsg.commit = 1 := by
  have hpos : 0 < buf.length := by omega
  have hlt : buf.length < chunk_size := by rw [chunk_size_eq]; omega
  refine ⟨hlt, ?_⟩
  refine ⟨(pyRange 0 silence_samples silence_chunk).map
      (fun i => List.replicate (2 * min silence_chunk (silence_samples - i)) (0 : Nat)),
      ?_, ?_, ?_⟩
  · simp [recordingStoppedUp, if_pos hpos, List.map_map, Function.comp]
  · intro s hs b hb
    simp only [List.mem_map] at hs
    obtain ⟨i, _, hsi⟩ := hs
    subst hsi
    exact List.eq_of_mem_replicate hb
  · have hnc : UpMsg.commit ∉
        ((pyRange 0 silence_samples silence_chunk).map
          (fun i => UpMsg.append
            (List.replicate (2 * min silence_chunk (silence_samples - i)) (0 : Nat)))) := by
      intro hmem
      simp only [List.mem_map] at hmem
      obtain ⟨i, _, hbad⟩ := hmem
      exact UpMsg.noConfusion hbad
    simp [recordingStoppedUp, if_pos hpos, List.count_append, List.count_cons,
      List.count_eq_zero.mpr hnc]

/-- Witness for c5_recording_stopped_order at a concrete 3200-byte
buffer of zeros. -/
theorem c5_recording_stopped_order_witness :
    (List.replicate 3200 (0 : Nat)).length = 3200
    ∧ ((List.replicate 3200 (0 : Nat)).length < chunk_size
      ∧ ∃ sils : List (List Nat),
          recordingStoppedUp (List.replicate 3200 (0 : Nat))
            = UpMsg.append (List.replicate 3200 (0 : Nat))
                :: (sils.map UpMsg.append ++ [UpMsg.commit])
          ∧ (∀ s ∈ sils, ∀ b ∈ s, b = 0)
          ∧ (recordingStoppedUp (List.replicate 3200 (0 : Nat))).count UpMsg.commit = 1) :=
  ⟨by rw [List.length_replicate],
   c5_recording_stopped_order _ (by rw [List.length_replicate])⟩

/-- Witness for c4_framer_chunks at a concrete two-message sequence. -/
theorem c4_framer_chunks_witness :
    ((runAppends [] [[1, 2, 3]]).2 ≠ []
      ∧ ∃ rest, recordingStoppedUp ((runAppends [] [[1, 2, 3]]).2)
          = UpMsg.append ((runAppends [] [[1, 2, 3]]).2) :: rest) :=
  ⟨by decide, (c4_framer_chunks [[1, 2, 3]]).2.2.2.2 (by decide)⟩

/-! Helper lemmas about type-field dispatch. -/

lemma isStrField_lookup {fs : List (List Char × JVal)} {k v : List Char}
    (h : isStrField fs k v = true) : lookupF k fs = some (.jstr v) := by
  unfold isStrField at h
  cases hl : lookupF k fs with
  | none => rw [hl] at h; simp at h
  | some w =>
      cases w with
      | jstr s =>
          rw [hl] at h
          simp only [beq_iff_eq] at h
          rw [h]
      | jnull => rw [hl] at h; simp at h
      | jbool b => rw [hl] at h; simp at h
      | jnum n => rw [hl] at h; simp at h
      | jarr xs => rw [hl] at h; simp at h
      | jobj gs => rw [hl] at h; simp at h

lemma isStrField_ne_of_lookup {fs : List (List Char × JVal)} {k s v : List Char}
    (h : lookupF k fs = some (.jstr s)) (hne : s ≠ v) :
    isStrField fs k v = false := by
  unfold isStrField
  rw [h]
  simp [hne]

/-- C1 amended: an event whose type is not one of the special-cased
strings is logged and dropped by both pumps; nothing is forwarded to
the other side (and the client pump's buffer is untouched). -/
theorem c1_unhandled_dropped (fs gs : List (List Char × JVal)) (buf : List Nat)
    (ha : notHandled azureHandledTypes fs = true)
    (hcl : notHandled clientHandledTypes gs = true) :
    receive_from_azure_step (.jobj fs) = []
    ∧ receive_from_client_step buf (.msg (.jobj gs)) = (buf, [], []) := by
  simp only [notHandled, azureHandledTypes, clientHandledTypes, List.all_cons,
    List.all_nil, Bool.and_eq_true, Bool.not_eq_true'] at ha hcl
  obtain ⟨a1, a2, a3, a4, a5, a6, a7, a8, a9, -⟩ := ha
  obtain ⟨b1, b2, b3, -⟩ := hcl
  constructor
  · simp [receive_from_azure_step, azure_obj_step, a1, a2, a3, a4, a5, a6, a7, a8, a9]
  · simp [receive_from_client_step, b1, b2, b3]

/-- Witness for c1_unhandled_dropped at a concrete unhandled type. -/
theorem c1_unhandled_dropped_witness :
    notHandled azureHandledTypes [(ts "type", .jstr (ts "custom.telemetry"))] = true
    ∧ notHandled clientHandledTypes [(ts "type", .jstr (ts "custom.telemetry"))] = true
    ∧ (receive_from_azure_step (.jobj [(ts "type", .jstr (ts "custom.telemetry"))]) = []
      ∧ receive_from_client_step [] (.msg (.jobj [(ts "type", .jstr (ts "custom.telemetry"))]))
          = ([], [], [])) :=
  ⟨by decide, by decide,
   c1_unhandled_dropped [(ts "type", .jstr (ts "custom.telemetry"))]
     [(ts "type", .jstr (ts "custom.telemetry"))] [] (by decide) (by decide)⟩

/-- Counterexample to C1 as stated: the upstream pump receives an event
of the unhandled type custom.telemetry and forwards nothing at all to
the client, rather than passing the event through unmodified. -/
theorem c1_passthrough_ce :
    receive_from_azure_step
        (.jobj [(ts "type", .jstr (ts "custom.telemetry")), (ts "data", .jstr (ts "x"))])
      = []
    ∧ receive_from_azure_step
        (.jobj [(ts "type", .jstr (ts "custom.telemetry")), (ts "data", .jstr (ts "x"))])
      ≠ [.jobj [(ts "type", .jstr (ts "custom.telemetry")), (ts "data", .jstr (ts "x"))]] := by
  constructor
  · rfl
  · intro h
    rw [show receive_from_azure_step
        (.jobj [(ts "type", .jstr (ts "custom.telemetry")), (ts "data", .jstr (ts "x"))])
      = [] from rfl] at h
    exact List.noConfusion h

/-- C8: a single malformed (non-JSON) frame is logged and skipped by
either pump, which continues with the remaining messages: the azure
pump forwards exactly the output of the surrounding messages, and the
client pump keeps its buffer, sends nothing upstream for the bad frame,
notifies the client once, and processes the rest unchanged. -/
theorem c8_malformed_skipped (pre suf : List AzureRaw) (ms1 ms2 : List ClientIn)
    (buf : List Nat) :
    azureRun (pre ++ AzureRaw.malformed :: suf) = azureRun pre ++ azureRun suf
    ∧ clientRun buf (ms1 ++ ClientIn.malformed :: ms2)
        = ((clientRun (clientRun buf ms1).1 ms2).1,
           (clientRun buf ms1).2.1 ++ (clientRun (clientRun buf ms1).1 ms2).2.1,
           (clientRun buf ms1).2.2
             ++ badMsgEnv :: (clientRun (clientRun buf ms1).1 ms2).2.2) := by
  constructor
  · induction pre with
    | nil => simp [azureRun, azureHandle]
    | cons m rest ih => simp [azureRun, ih, List.append_assoc]
  · induction ms1 generalizing buf with
    | nil => simp [clientRun, receive_from_client_step]
    | cons m rest ih =>
        simp only [List.cons_append, clientRun, List.append_eq]
        rw [ih]
        simp [List.append_assoc]

/-- C10: a response.audio.delta event whose delta field is missing or
the empty string produces no message to the client at all. -/
theorem c10_empty_delta_dropped (fs : List (List Char × JVal))
    (ht : isStrField fs (ts "type") (ts "response.audio.delta") = true)
    (hd : lookupF (ts "delta") fs = none ∨ lookupF (ts "delta") fs = some (.jstr [])) :
    receive_from_azure_step (.jobj fs) = [] := by
  have hlt : lookupF (ts "type") fs = some (.jstr (ts "response.audio.delta")) :=
    isStrField_lookup ht
  have h1 : isStrField fs (ts "type") (ts "session.created") = false :=
    isStrField_ne_of_lookup hlt (by decide)
  rcases hd with hd | hd <;>
    simp [receive_from_azure_step, azure_obj_step, h1, ht, hd, truthy]

/-- Witness for c10_empty_delta_dropped with the delta field absent. -/
theorem c10_empty_delta_dropped_witness :
    isStrField [(ts "type", .jstr (ts "response.audio.delta"))]
        (ts "type") (ts "response.audio.delta") = true
    ∧ (lookupF (ts "delta") [(ts "type", .jstr (ts "response.audio.delta"))] = none
      ∨ lookupF (ts "delta") [(ts "type", .jstr (ts "response.audio.delta"))]
          = some (.jstr []))
    ∧ receive_from_azure_step (.jobj [(ts "type", .jstr (ts "response.audio.delta"))]) = [] :=
  ⟨by decide, Or.inl rfl,
   c10_empty_delta_dropped [(ts "type", .jstr (ts "response.audio.delta"))]
     (by decide) (Or.inl rfl)⟩

/-- C7 amended: for an upstream error event carrying a message string,
the envelope forwarded to the client surfaces only the message (inside
the fixed formatted text); the extracted code and type fields are
logged but not included in what the client receives. -/
theorem c7_error_envelope (fs efs : List (List Char × JVal)) (msg : List Char)
    (ht : isStrField fs (ts "type") (ts "error") = true)
    (he : lookupF (ts "error") fs = some (.jobj efs))
    (hm : lookupF (ts "message") efs = some (.jstr msg)) :
    receive_from_azure_step (.jobj fs)
      = [.jobj [(ts "type", .jstr (ts "error")),
                (ts "message", .jstr (ts "Azure 오류: " ++ msg))]] := by
  have hlt : lookupF (ts "type") fs = some (.jstr (ts "error")) := isStrField_lookup ht
  have h1 : isStrField fs (ts "type") (ts "session.created") = false :=
    isStrField_ne_of_lookup hlt (by decide)
  have h2 : isStrField fs (ts "type") (ts "response.audio.delta") = false :=
    isStrField_ne_of_lookup hlt (by decide)
  have h3 : isStrField fs (ts "type") (ts "response.audio.started") = false :=
    isStrField_ne_of_lookup hlt (by decide)
  have h4 : isStrField fs (ts "type") (ts "response.audio.done") = false :=
    isStrField_ne_of_lookup hlt (by decide)
  have h5 : isStrField fs (ts "type") (ts "conversation.item.created") = false :=
    isStrField_ne_of_lookup hlt (by decide)
  have h6 : isStrField fs (ts "type") (ts "input_audio_buffer.speech_started") = false :=
    isStrField_ne_of_lookup hlt (by decide)
  have h7 : isStrField fs (ts "type") (ts "input_audio_buffer.speech_stopped") = false :=
    isStrField_ne_of_lookup hlt (by decide)
  simp [receive_from_azure_step, azure_obj_step, h1, h2, h3, h4, h5, h6, h7, ht,
    he, hm, pyStr]

/-- Witness for c7_error_envelope at a concrete error event. -/
theorem c7_error_envelope_witness :
    isStrField [(ts "type", .jstr (ts "error")),
                (ts "error", .jobj [(ts "message", .jstr (ts "boom")),
                                    (ts "code", .jstr (ts "42")),
                                    (ts "type", .jstr (ts "bad"))])]
        (ts "type") (ts "error") = true
    ∧ receive_from_azure_step
        (.jobj [(ts "type", .jstr (ts "error")),
                (ts "error", .jobj [(ts "message", .jstr (ts "boom")),
                                    (ts "code", .jstr (ts "42")),
                                    (ts "type", .jstr (ts "bad"))])])
      = [.jobj [(ts "type", .jstr (ts "error")),
                (ts "message", .jstr (ts "Azure 오류: " ++ ts "boom"))]] :=
  ⟨by decide,
   c7_error_envelope _ [(ts "message", .jstr (ts "boom")),
                        (ts "code", .jstr (ts "42")),
                        (ts "type", .jstr (ts "bad"))] (ts "boom")
     (by decide) rfl rfl⟩

/-- Counterexample to C7 as stated: for an error event carrying
message, code and type, the envelope sent to the client is a two-field
object whose only payload field is the formatted message; it has no
code field (nor the upstream error type), so not all three extracted
fields are surfaced. -/
theorem c7_error_fields_ce :
    receive_from_azure_step
        (.jobj [(ts "type", .jstr (ts "error")),
                (ts "error", .jobj [(ts "message", .jstr (ts "boom")),
                                    (ts "code", .jstr (ts "42")),
                                    (ts "type", .jstr (ts "bad"))])])
      = [.jobj [(ts "type", .jstr (ts "error")),
                (ts "message", .jstr (ts "Azure 오류: boom"))]]
    ∧ lookupF (ts "code")
        [(ts "type", .jstr (ts "error")),
         (ts "message", .jstr (ts "Azure 오류: boom"))] = none :=
  ⟨rfl, rfl⟩

/-- C2 amended: on a first upstream event whose type is any string
other than session.created (error included), the relay sends a warning
to the client and proceeds to start both pumps: it does not fail
closed. -/
theorem c2_nonstrict_proceeds (fs : List (List Char × JVal)) (t : List Char)
    (hl : lookupF (ts "type") fs = some (.jstr t))
    (hne : t ≠ ts "session.created") :
    negotiate (.event (.jobj fs)) = ⟨warnEnv (some (.jstr t)), true⟩ := by
  have h1 : isStrField fs (ts "type") (ts "session.created") = false :=
    isStrField_ne_of_lookup hl hne
  simp [negotiate, h1, hl]

/-- Witness for c2_nonstrict_proceeds at a concrete unexpected type. -/
theorem c2_nonstrict_proceeds_witness :
    lookupF (ts "type") [(ts "type", .jstr (ts "some.other.event"))]
        = some (.jstr (ts "some.other.event"))
    ∧ ts "some.other.event" ≠ ts "session.created"
    ∧ negotiate (.event (.jobj [(ts "type", .jstr (ts "some.other.event"))]))
        = ⟨warnEnv (some (.jstr (ts "some.other.event"))), true⟩ :=
  ⟨rfl, by decide, c2_nonstrict_proceeds _ _ rfl (by decide)⟩

/-- Counterexample to C2 as stated: on a first event of the unexpected
type some.other.event, the relay starts the pumps instead of failing
closed. -/
theorem c2_strict_ce :
    (negotiate (.event (.jobj [(ts "type", .jstr (ts "some.other.event"))]))).pumpsStarted
      = true := rfl

/-- C3 amended: on negotiation timeout the relay never starts the
pumps and the client receives the distinguishable timeout error
envelope; however, when the first upstream event has type error, the
relay starts the pumps anyway (it does not treat error as fatal). -/
theorem c3_timeout_and_error_first_event :
    (negotiate .timeout).pumpsStarted = false
    ∧ (negotiate .timeout).toClient = timeoutEnv
    ∧ ∀ fs : List (List Char × JVal),
        isStrField fs (ts "type") (ts "error") = true →
        (negotiate (.event (.jobj fs))).pumpsStarted = true := by
  refine ⟨rfl, rfl, ?_⟩
  intro fs h
  have hl : lookupF (ts "type") fs = some (.jstr (ts "error")) := isStrField_lookup h
  have h1 : isStrField fs (ts "type") (ts "session.created") = false :=
    isStrField_ne_of_lookup hl (by decide)
  simp [negotiate, h1]

/-- Witness for c3_timeout_and_error_first_event at a concrete error
event. -/
theorem c3_timeout_and_error_first_event_witness :
    isStrField [(ts "type", .jstr (ts "error"))] (ts "type") (ts "error") = true
    ∧ (negotiate (.event (.jobj [(ts "type", .jstr (ts "error"))]))).pumpsStarted = true :=
  ⟨by decide, c3_timeout_and_error_first_event.2.2 _ (by decide)⟩

/-- Counterexample to C3 as stated: a first upstream event of type
error does not stop the relay; the pumps are started. -/
theorem c3_error_event_ce :
    (negotiate (.event (.jobj
        [(ts "type", .jstr (ts "error")),
         (ts "error", .jobj [(ts "message", .jstr (ts "bad request"))])]))).pumpsStarted
      = true := rfl

/-! Helper lemmas about rstrip and replace for the URL claims. -/

lemma dropWhile_append_of_ne (p : Char → Bool) (l1 l2 : List Char)
    (h : l1.dropWhile p ≠ []) :
    (l1 ++ l2).dropWhile p = l1.dropWhile p ++ l2 := by
  induction l1 with
  | nil => simp [List.dropWhile] at h
  | cons c l ih =>
      by_cases hc : p c = true
      · simp only [List.dropWhile_cons, hc, if_true] at h
        simp only [List.cons_append, List.dropWhile_cons, hc, if_true]
        exact ih h
      · rw [Bool.not_eq_true] at hc
        simp [List.dropWhile_cons, hc]

lemma rstripSlash_append (pre host : List Char) (h : rstripSlash host ≠ []) :
    rstripSlash (pre ++ host) = pre ++ rstripSlash host := by
  unfold rstripSlash at h ⊢
  have hne : host.reverse.dropWhile (fun c => c == '/') ≠ [] := by
    intro h0
    apply h
    rw [h0]
    rfl
  rw [List.reverse_append, dropWhile_append_of_ne _ _ _ hne, List.reverse_append,
    List.reverse_reverse]

lemma isPrefixOf_append_self (l t : List Char) : l.isPrefixOf (l ++ t) = true := by
  induction l with
  | nil => simp [List.isPrefixOf]
  | cons c rest ih => simp [List.isPrefixOf, ih]

lemma replaceAllF_not_contains (pat rep : List Char) :
    ∀ (fuel : Nat) (s : List Char), containsSub pat s = false →
      replaceAllF pat rep fuel s = s := by
  intro fuel
  induction fuel with
  | zero => intro s _; rfl
  | succ fuel ih =>
      intro s hs
      cases s with
      | nil => rfl
      | cons c rest =>
          unfold containsSub at hs
          rw [Bool.or_eq_false_iff] at hs
          obtain ⟨h1, h2⟩ := hs
          simp [replaceAllF, h1, ih rest h2]

lemma replaceAllF_append_pat (p : Char) (ps rep rest : List Char) (fuel : Nat) :
    replaceAllF (p :: ps) rep (fuel + 1) ((p :: ps) ++ rest)
      = rep ++ replaceAllF (p :: ps) rep fuel rest := by
  have hpre : (p :: ps).isPrefixOf ((p :: ps) ++ rest) = true := isPrefixOf_append_self _ _
  have hdrop : ((p :: ps) ++ rest).drop (p :: ps).length = rest := List.drop_left _ _
  simp only [List.cons_append] at hpre hdrop ⊢
  simp only [replaceAllF, hpre, if_true, hdrop]

/-- C6 amended: connect builds the upstream URL from the endpoint with
all trailing slashes stripped, the fixed /voice-live/realtime path and
the api-version and model query parameters, rewriting an https scheme
to wss; an endpoint with any other scheme, http in particular, is left
unchanged (the source only replaces the text https://). -/
theorem c6_url_construction :
    (∀ host v m : List Char,
        rstripSlash host ≠ [] →
        containsSub (ts "https://") (rstripSlash host ++ url_tail v m) = false →
        connect_url (ts "https://" ++ host) v m
          = ts "wss://" ++ (rstripSlash host ++ url_tail v m))
    ∧ (∀ endpoint v m : List Char,
        containsSub (ts "https://") (rstripSlash endpoint ++ url_tail v m) = false →
        connect_url endpoint v m = rstripSlash endpoint ++ url_tail v m) := by
  constructor
  · intro host v m h1 h2
    unfold connect_url replaceAll
    rw [rstripSlash_append _ _ h1, List.append_assoc]
    have h8 : (ts "https://").length = 8 := rfl
    have hlen : (ts "https://" ++ (rstripSlash host ++ url_tail v m)).length
        = ((rstripSlash host ++ url_tail v m).length + 7) + 1 := by
      rw [List.length_append, h8]
      omega
    rw [hlen]
    have hts : ts "https://" = 'h' :: ts "ttps://" := rfl
    rw [hts] at h2 ⊢
    rw [replaceAllF_append_pat]
    rw [replaceAllF_not_contains _ _ _ _ h2]
  · intro endpoint v m h
    unfold connect_url replaceAll
    exact replaceAllF_not_contains _ _ _ _ h

/-- Witness for c6_url_construction at concrete https and http
endpoints (versions and models as in the sources' defaults). -/
theorem c6_url_construction_witness :
    rstripSlash (ts "foo.azure.com/") ≠ []
    ∧ containsSub (ts "https://")
        (rstripSlash (ts "foo.azure.com/") ++ url_tail (ts "v1") (ts "gpt-4o")) = false
    ∧ connect_url (ts "https://" ++ ts "foo.azure.com/") (ts "v1") (ts "gpt-4o")
        = ts "wss://" ++ (rstripSlash (ts "foo.azure.com/") ++ url_tail (ts "v1") (ts "gpt-4o"))
    ∧ containsSub (ts "https://")
        (rstripSlash (ts "http://bar.azure.com") ++ url_tail (ts "v1") (ts "gpt-4o")) = false
    ∧ connect_url (ts "http://bar.azure.com") (ts "v1") (ts "gpt-4o")
        = rstripSlash (ts "http://bar.azure.com") ++ url_tail (ts "v1") (ts "gpt-4o") :=
  ⟨by decide, by decide,
   c6_url_construction.1 (ts "foo.azure.com/") (ts "v1") (ts "gpt-4o") (by decide) (by decide),
   by decide,
   c6_url_construction.2 (ts "http://bar.azure.com") (ts "v1") (ts "gpt-4o") (by decide)⟩

/-- Counterexample to C6 as stated: an http endpoint is not rewritten
to the ws scheme; the built URL keeps http. -/
theorem c6_http_ce :
    connect_url (ts "http://foo.azure.com") (ts "v1") (ts "gpt-4o")
      = ts "http://foo.azure.com/voice-live/realtime?api-version=v1&model=gpt-4o"
    ∧ connect_url (ts "http://foo.azure.com") (ts "v1") (ts "gpt-4o")
      ≠ ts "ws://foo.azure.com/voice-live/realtime?api-version=v1&model=gpt-4o" := by
  constructor
  · decide
  · decide

end VoiceLive
